import Mathlib

/-!
Shallow embedding of `wav_player.c` (zatouna/wav_player) and proofs about it.

The C sources are translated as follows: machine integers become `Nat`/`Int`
with explicit wrapping (`% 2^w`, twos-complement reinterpretation) where the
C code can wrap; the `FILE*` byte stream becomes a `List Nat` of byte values;
`fopen` failure becomes an `Option` on that list; the sink callback
`wav_player_write_cb_t` becomes a function from invocation index to the
`esp_err_t` value it returns, together with the list of buffers it was handed;
the global `current_volume` becomes explicit state passing.
-/

namespace WavPlayer

/-- esp_err_t value `ESP_OK` (0). -/
def ESP_OK : Int := 0

/-- esp_err_t value `ESP_FAIL` (-1). -/
def ESP_FAIL : Int := -1

/-- esp_err_t value `ESP_ERR_INVALID_ARG` (0x102 = 258). -/
def ESP_ERR_INVALID_ARG : Int := 258

/-- `#define MIN_VOLUME 0` (wav_player.h). -/
def MIN_VOLUME : Int := 0

/-- `#define MAX_VOLUME 100` (wav_player.h). -/
def MAX_VOLUME : Int := 100

/-- `#define BUFFER_SIZE 1024` (wav_player.c line 7); this is the value the
streaming loop actually uses (the header declares 4096, but the `.c` file
redefines it and `malloc`/`fread` use 1024). -/
def BUFFER_SIZE : Nat := 1024

/-- `wav_header_t` (wav_player.h): `num_channels` and `bits_per_sample` and
`block_align` are `uint16_t`, `sample_rate` and `data_size` are `uint32_t`;
all are modelled as `Nat` (the parser only ever produces in-range values). -/
structure wav_header_t where
  num_channels : Nat
  sample_rate : Nat
  bits_per_sample : Nat
  data_size : Nat
  block_align : Nat
deriving DecidableEq

/-- Twos-complement reinterpretation of an integer as a C `int16_t`:
the cast wraps modulo 2^16 into [-32768, 32767]. -/
def toInt16 (x : Int) : Int := (x + 32768) % 65536 - 32768

/-- Twos-complement value of a 32-bit pattern (`uint32_t` bits read as
`int32_t`), wrapping modulo 2^32 into [-2^31, 2^31). -/
def toInt32 (u : Nat) : Int :=
  if u % 4294967296 < 2147483648 then ((u % 4294967296 : Nat) : Int)
  else ((u % 4294967296 : Nat) : Int) - 4294967296

/-- `convert_24_to_16` (wav_player.c lines 19-27):
`int32_t sample_24 = (b[2] << 16) | (b[1] << 8) | b[0];` — the three promoted
bytes are nonnegative and below 2^24, so the assembled pattern is a `Nat`;
`if (sample_24 & 0x800000) sample_24 |= 0xFF000000;` — ORing the top byte
makes the `int32_t` negative, modelled by `toInt32` of the 32-bit pattern;
`return (int16_t)(sample_24 >> 8);` — arithmetic shift right by 8 on the
(possibly negative) `int32_t`, i.e. floor division by 256, then the
truncating cast to `int16_t`. -/
def convert_24_to_16 (b0 b1 b2 : Nat) : Int :=
  let sample_24u : Nat := ((b2 <<< 16) ||| (b1 <<< 8)) ||| b0
  let sample_24 : Int :=
    if sample_24u &&& 8388608 ≠ 0 then toInt32 (sample_24u ||| 4278190080)
    else (sample_24u : Nat)
  toInt16 (Int.fdiv sample_24 256)

/-- `apply_volume` (wav_player.c lines 38-41):
`float volume_multiplier = volume / 100.0f; return (int16_t)(sample * volume_multiplier);`
The float multiplier and the toward-zero truncating cast are modelled by exact
rational arithmetic, `(sample * volume)` truncated toward zero by 100
(`Int.tdiv`). At the volume values the development exercises (0 and 100) every
float operation involved is exact, so the model and the C float computation
coincide bit for bit there. -/
def apply_volume (sample : Int) (volume : Int) : Int :=
  toInt16 (Int.tdiv (sample * volume) 100)

/-- `is_valid_wav_header` (wav_player.c lines 56-80): the chain of early
returns; `expected_block_align` is a `uint16_t`, hence the `% 65536` on the
product (the product never actually exceeds 6 in a reachable state). -/
def is_valid_wav_header (header : wav_header_t) : Bool :=
  if header.num_channels < 1 ∨ header.num_channels > 2 then false
  else if header.bits_per_sample ≠ 16 ∧ header.bits_per_sample ≠ 24 then false
  else if header.sample_rate < 8000 ∨ header.sample_rate > 48000 then false
  else if header.block_align ≠ (header.num_channels * (header.bits_per_sample / 8)) % 65536 then
    false
  else true

/-- Byte `i` of the raw header buffer (`uint8_t wav_header[44]`). -/
def rdByte (bs : List Nat) (i : Nat) : Nat := bs.getD i 0

/-- `read_wav_header` (wav_player.c lines 92-109): one
`fread(wav_header, 1, 44, f)`; if fewer than 44 bytes are available the
function returns `ESP_FAIL` (modelled as `none`, no field is produced);
otherwise the five fields are assembled from fixed offsets by the C
shift-and-or expressions and the stream position advances by 44 bytes
(the remaining bytes are returned alongside the header). -/
def read_wav_header (bs : List Nat) : Option (wav_header_t × List Nat) :=
  if bs.length < 44 then none
  else
    some
      ({ num_channels := rdByte bs 22 ||| (rdByte bs 23 <<< 8)
         sample_rate := rdByte bs 24 ||| (rdByte bs 25 <<< 8) ||| (rdByte bs 26 <<< 16) |||
           (rdByte bs 27 <<< 24)
         bits_per_sample := rdByte bs 34 ||| (rdByte bs 35 <<< 8)
         data_size := rdByte bs 40 ||| (rdByte bs 41 <<< 8) ||| (rdByte bs 42 <<< 16) |||
           (rdByte bs 43 <<< 24)
         block_align := rdByte bs 32 ||| (rdByte bs 33 <<< 8) }, bs.drop 44)

/-- The `int16_t` stored at two consecutive bytes: the loop reads samples
through `(int16_t*)buffer` on a little-endian target. -/
def int16OfBytes (lo hi : Nat) : Int := toInt16 (((lo ||| (hi <<< 8)) : Nat) : Int)

/-- The `uint16_t` bit pattern of an `int16_t` value. -/
def uint16OfInt16 (p : Int) : Nat := (p % 65536).toNat

/-- Low byte of the little-endian store of an `int16_t`. -/
def loByte (p : Int) : Nat := uint16OfInt16 p % 256

/-- High byte of the little-endian store of an `int16_t`. -/
def hiByte (p : Int) : Nat := uint16OfInt16 p / 256

/-- The 16-bit branch of the processing loop (wav_player.c lines 156-163):
`sample_count = bytes_read / 2` samples are read from `buffer`, scaled, and
stored into `processed_buffer`; byte positions not covered by a full sample
(in particular the trailing byte of an odd-length chunk, and everything past
`bytes_read`) keep whatever `processed_buffer` already held. The buffer is
represented positionally: entry `j` of the result is byte `j` of
`processed_buffer` after the iteration. -/
def transform16 (vol : Int) (chunk buf : List Nat) : List Nat :=
  (List.range buf.length).map fun j =>
    if j < 2 * (chunk.length / 2) then
      let s := int16OfBytes (chunk.getD (2 * (j / 2)) 0) (chunk.getD (2 * (j / 2) + 1) 0)
      let p := apply_volume s vol
      if j % 2 = 0 then loByte p else hiByte p
    else buf.getD j 0

/-- Effect of one loop iteration on `processed_buffer` (wav_player.c lines
155-172): the 16-bit branch writes the scaled samples; the 24-bit branch
(lines 164-171) computes `convert_24_to_16` and `apply_volume` for each
3-byte group but stores nothing — the comment `// ... conversion code here ...`
is a placeholder — so `processed_buffer` is left unchanged; other bit depths
never reach the loop (the validator rejects them) and also leave it
unchanged. -/
def transformChunk (bits : Nat) (vol : Int) (chunk buf : List Nat) : List Nat :=
  if bits = 16 then transform16 vol chunk buf else buf

/-- Successive `fread(buffer, 1, BUFFER_SIZE, f)` results on a blocking byte
stream: chunks of at most `BUFFER_SIZE` bytes until the stream is exhausted.
Defined with an explicit fuel argument (any fuel at least `data.length` gives
the same list) so that the definition is structurally recursive and reduces
in the kernel. -/
def chunkifyF : Nat → List Nat → List (List Nat)
  | 0, _ => []
  | fuel + 1, data =>
    if data.isEmpty then []
    else data.take BUFFER_SIZE :: chunkifyF fuel (data.drop BUFFER_SIZE)

/-- The chunk sequence the streaming loop reads from the data region. -/
def chunkify (data : List Nat) : List (List Nat) := chunkifyF data.length data

/-- Observable outcome of the streaming loop: the buffers passed to the sink
callback in order, the number of `fread` calls performed, and the final value
of `ret`. -/
structure LoopOut where
  calls : List (List Nat)
  freads : Nat
  ret : Int
deriving DecidableEq

/-- The read/process/write loop of `wav_player_play_file` (wav_player.c lines
151-179). Each iteration performs one `fread` (so a zero-byte read at
end-of-stream also counts one), transforms the chunk into `processed_buffer`,
and calls `write_cb(processed_buffer, bytes_read, user_data)`; a callback
result other than `ESP_OK` breaks out of the loop and becomes `ret`. The sink
is modelled by the `esp_err_t` value it returns at each invocation index. -/
def playLoopChunks (sink : Nat → Int) (bits : Nat) (vol : Int) :
    List (List Nat) → List Nat → Nat → LoopOut
  | [], _, _ => { calls := [], freads := 1, ret := ESP_OK }
  | chunk :: rest, buf, idx =>
    let buf2 := transformChunk bits vol chunk buf
    let out := buf2.take chunk.length
    if sink idx = ESP_OK then
      let o := playLoopChunks sink bits vol rest buf2 (idx + 1)
      { calls := out :: o.calls, freads := o.freads + 1, ret := o.ret }
    else { calls := [out], freads := 1, ret := sink idx }

/-- The buffer contents successively handed to the sink when it keeps
succeeding: the prefix of length `bytes_read` of `processed_buffer` after
each iteration. -/
def outputsFrom (bits : Nat) (vol : Int) : List (List Nat) → List Nat → List (List Nat)
  | [], _ => []
  | chunk :: rest, buf =>
    let buf2 := transformChunk bits vol chunk buf
    buf2.take chunk.length :: outputsFrom bits vol rest buf2

/-- Observable outcome of one `wav_player_play_file` invocation: its
`esp_err_t` return value, the buffers passed to the sink, whether `fopen`
was called, and how many `fread` calls were made. -/
structure PlayOutcome where
  result : Int
  calls : List (List Nat)
  fopenCalled : Bool
  freads : Nat
deriving DecidableEq

/-- `wav_player_play_file` (wav_player.c lines 123-185). Inputs: whether
`write_cb` is `NULL`; the file as `none` (fopen fails) or `some bytes`;
whether both `malloc` calls succeed; the current volume; the initial
(uninitialized) contents of `processed_buffer`; and the return values of the sink
by invocation index. -/
def wav_player_play_file (cbNull : Bool) (file : Option (List Nat)) (allocOk : Bool)
    (vol : Int) (initBuf : List Nat) (sink : Nat → Int) : PlayOutcome :=
  if cbNull then { result := ESP_ERR_INVALID_ARG, calls := [], fopenCalled := false, freads := 0 }
  else
    match file with
    | none => { result := ESP_FAIL, calls := [], fopenCalled := true, freads := 0 }
    | some bs =>
      match read_wav_header bs with
      | none => { result := ESP_FAIL, calls := [], fopenCalled := true, freads := 1 }
      | some (hdr, rest) =>
        if is_valid_wav_header hdr = false then
          { result := ESP_FAIL, calls := [], fopenCalled := true, freads := 1 }
        else if allocOk = false then
          { result := ESP_FAIL, calls := [], fopenCalled := true, freads := 1 }
        else
          let o := playLoopChunks sink hdr.bits_per_sample vol (chunkify rest) initBuf 0
          { result := o.ret, calls := o.calls, fopenCalled := true, freads := 1 + o.freads }

/-- Observable outcome of one `wav_player_get_info` invocation. -/
structure InfoOutcome where
  result : Int
  header : Option wav_header_t
  fopenCalled : Bool
  freads : Nat
deriving DecidableEq

/-- `wav_player_get_info` (wav_player.c lines 111-121): open, read the
header, close; no validation, no data reads. -/
def wav_player_get_info (file : Option (List Nat)) : InfoOutcome :=
  match file with
  | none => { result := ESP_FAIL, header := none, fopenCalled := true, freads := 0 }
  | some bs =>
    match read_wav_header bs with
    | none => { result := ESP_FAIL, header := none, fopenCalled := true, freads := 1 }
    | some (hdr, _) => { result := ESP_OK, header := some hdr, fopenCalled := true, freads := 1 }

/-- `static int current_volume = 30;` (wav_player.c line 9). -/
def initial_volume : Int := 30

/-- `wav_player_set_volume` (wav_player.c lines 187-192): clamp below at
`MIN_VOLUME`, then above at `MAX_VOLUME`, store; the new state is returned. -/
def wav_player_set_volume (volume : Int) : Int :=
  let v1 := if volume < MIN_VOLUME then MIN_VOLUME else volume
  if v1 > MAX_VOLUME then MAX_VOLUME else v1

/-- `wav_player_increase_volume` (wav_player.c lines 194-196). -/
def wav_player_increase_volume (current amount : Int) : Int :=
  wav_player_set_volume (current + amount)

/-- `wav_player_decrease_volume` (wav_player.c lines 198-200). -/
def wav_player_decrease_volume (current amount : Int) : Int :=
  wav_player_set_volume (current - amount)

/-- `wav_player_get_volume` (wav_player.c lines 202-204). -/
def wav_player_get_volume (current : Int) : Int := current

/-- One mutation of the process-wide volume state. -/
inductive VolOp
  | set (v : Int)
  | increase (a : Int)
  | decrease (a : Int)

/-- Effect of one volume operation on the `current_volume` state. -/
def applyVolOp (cur : Int) : VolOp → Int
  | .set v => wav_player_set_volume v
  | .increase a => wav_player_increase_volume cur a
  | .decrease a => wav_player_decrease_volume cur a

/-- The volume state after a sequence of operations, starting from the
initializer of `current_volume`. -/
def runVolOps (ops : List VolOp) : Int := ops.foldl applyVolOp initial_volume

/-! Helper lemmas shared by the claim theorems. -/

/-- ORing a value below `2 ^ k` with a value shifted left by `k` is addition. -/
theorem lorLow {x : Nat} (y k : Nat) (h : x < 2 ^ k) : x ||| (y <<< k) = x + 2 ^ k * y := by
  calc x ||| (y <<< k) = x ||| (2 ^ k * y) := by rw [Nat.shiftLeft_eq, Nat.mul_comm]
    _ = (2 ^ k * y) ||| x := Nat.or_comm _ _
    _ = 2 ^ k * y + x := (Nat.mul_add_lt_is_or h y).symm
    _ = x + 2 ^ k * y := Nat.add_comm _ _

/-- Byte-lane OR for a 16-bit little-endian read. -/
theorem lor16 (a b : Nat) (ha : a < 256) : a ||| (b <<< 8) = a + 256 * b := by
  have := lorLow (x := a) b 8 (by norm_num [ha])
  simpa using this

/-- Byte-lane OR chain for a 32-bit little-endian read. -/
theorem lor32 (a b c d : Nat) (ha : a < 256) (hb : b < 256) (hc : c < 256) :
    a ||| (b <<< 8) ||| (c <<< 16) ||| (d <<< 24) =
      a + 256 * b + 65536 * c + 16777216 * d := by
  have h1 : a ||| (b <<< 8) = a + 256 * b := lor16 a b ha
  have h2 : a + 256 * b ||| (c <<< 16) = a + 256 * b + 65536 * c := by
    have := lorLow (x := a + 256 * b) c 16 (by norm_num; omega)
    simpa using this
  have h3 : a + 256 * b + 65536 * c ||| (d <<< 24) =
      a + 256 * b + 65536 * c + 16777216 * d := by
    have := lorLow (x := a + 256 * b + 65536 * c) d 24 (by norm_num; omega)
    simpa using this
  rw [h1, h2, h3]

/-- `wav_player_set_volume` always lands in `[MIN_VOLUME, MAX_VOLUME]`. -/
theorem set_volume_bounds (v : Int) :
    0 ≤ wav_player_set_volume v ∧ wav_player_set_volume v ≤ 100 := by
  simp only [wav_player_set_volume, MIN_VOLUME, MAX_VOLUME]
  split_ifs <;> omega

/-- The per-iteration transform never changes the size of
`processed_buffer`. -/
theorem transformChunk_length (bits : Nat) (vol : Int) (chunk buf : List Nat) :
    (transformChunk bits vol chunk buf).length = buf.length := by
  unfold transformChunk
  split
  · unfold transform16
    rw [List.length_map, List.length_range]
  · rfl

/-- Every chunk produced by `chunkifyF` (with enough fuel) is nonempty and no
longer than `BUFFER_SIZE`. -/
theorem chunkifyF_chunks :
    ∀ (fuel : Nat) (data : List Nat), data.length ≤ fuel →
      ∀ c ∈ chunkifyF fuel data, c.length ≤ BUFFER_SIZE ∧ c ≠ [] := by
  intro fuel
  induction fuel with
  | zero =>
    intro data _ c hc
    simp only [chunkifyF, List.not_mem_nil] at hc
  | succ n ih =>
    intro data h c hc
    unfold chunkifyF at hc
    by_cases hd : data.isEmpty
    · rw [if_pos hd] at hc
      simp at hc
    · rw [if_neg hd] at hc
      have hne : data ≠ [] := by
        intro hnil
        rw [hnil] at hd
        exact hd rfl
      have hpos : 0 < data.length := List.length_pos.mpr hne
      rcases List.mem_cons.mp hc with rfl | hmem
      · refine ⟨by rw [List.length_take]; omega, ?_⟩
        apply List.length_pos.mp
        rw [List.length_take]
        have hB : BUFFER_SIZE = 1024 := rfl
        omega
      · refine ih (data.drop BUFFER_SIZE) ?_ c hmem
        rw [List.length_drop]
        have hB : BUFFER_SIZE = 1024 := rfl
        omega

/-- Every chunk the streaming loop reads is nonempty and no longer than
`BUFFER_SIZE`. -/
theorem chunkify_chunks (data : List Nat) :
    ∀ c ∈ chunkify data, c.length ≤ BUFFER_SIZE ∧ c ≠ [] :=
  chunkifyF_chunks data.length data (le_refl _)

/-- Each buffer delivered to the sink has exactly the byte length of the
chunk that was read for it. -/
theorem outputsFrom_lengths (bits : Nat) (vol : Int) :
    ∀ (cs : List (List Nat)) (buf : List Nat), buf.length = BUFFER_SIZE →
      (∀ c ∈ cs, c.length ≤ BUFFER_SIZE) →
      (outputsFrom bits vol cs buf).map List.length = cs.map List.length := by
  intro cs
  induction cs with
  | nil =>
    intro buf _ _
    rfl
  | cons c rest ih =>
    intro buf hbuf hcs
    simp only [outputsFrom, List.map_cons]
    congr 1
    · rw [List.length_take, transformChunk_length, hbuf]
      have := hcs c (List.mem_cons_self c rest)
      omega
    · exact ih (transformChunk bits vol c buf)
        ((transformChunk_length bits vol c buf).trans hbuf)
        (fun c2 hc2 => hcs c2 (List.mem_cons_of_mem c hc2))

/-- If the sink succeeds on the first `k` invocations and fails on invocation
`k` (counting from `idx`), and at least `k + 1` chunks remain, the loop stops
right there: exactly `k + 1` chunks are read and passed to the sink, and the
return value of the sink at the failing invocation becomes `ret` verbatim. -/
theorem playLoopChunks_first_fail (sink : Nat → Int) (bits : Nat) (vol : Int) :
    ∀ (k : Nat) (cs : List (List Nat)) (buf : List Nat) (idx : Nat),
      (∀ i, i < k → sink (idx + i) = ESP_OK) → sink (idx + k) ≠ ESP_OK →
      k < cs.length →
      playLoopChunks sink bits vol cs buf idx =
        { calls := (outputsFrom bits vol cs buf).take (k + 1),
          freads := k + 1, ret := sink (idx + k) } := by
  intro k
  induction k with
  | zero =>
    intro cs buf idx hok hfail hlen
    match cs with
    | [] => simp at hlen
    | c :: rest =>
      rw [Nat.add_zero] at hfail
      simp only [playLoopChunks, outputsFrom, if_neg hfail, List.take_succ_cons,
        List.take_zero, Nat.add_zero]
  | succ k ih =>
    intro cs buf idx hok hfail hlen
    match cs with
    | [] => simp at hlen
    | c :: rest =>
      have h0 : sink idx = ESP_OK := by
        have := hok 0 (Nat.succ_pos k)
        rwa [Nat.add_zero] at this
      have hok2 : ∀ i, i < k → sink (idx + 1 + i) = ESP_OK := by
        intro i hi
        have e : idx + 1 + i = idx + (i + 1) := by omega
        rw [e]
        exact hok (i + 1) (by omega)
      have hfail2 : sink (idx + 1 + k) ≠ ESP_OK := by
        have e : idx + 1 + k = idx + (k + 1) := by omega
        rw [e]
        exact hfail
      have hlen2 : k < rest.length := by
        simp only [List.length_cons] at hlen
        omega
      simp only [playLoopChunks, outputsFrom, if_pos h0]
      rw [ih rest (transformChunk bits vol c buf) (idx + 1) hok2 hfail2 hlen2]
      have e : idx + 1 + k = idx + (k + 1) := by omega
      rw [e, List.take_succ_cons]

/-- Every single volume mutation lands in `[0, 100]`. -/
theorem applyVolOp_bounds (cur : Int) (op : VolOp) :
    0 ≤ applyVolOp cur op ∧ applyVolOp cur op ≤ 100 := by
  cases op with
  | set v => exact set_volume_bounds v
  | increase a => exact set_volume_bounds (cur + a)
  | decrease a => exact set_volume_bounds (cur - a)

/-- Folding volume operations from any in-range state stays in `[0, 100]`. -/
theorem foldVolOps_bounds (ops : List VolOp) :
    ∀ cur : Int, 0 ≤ cur → cur ≤ 100 →
      0 ≤ ops.foldl applyVolOp cur ∧ ops.foldl applyVolOp cur ≤ 100 := by
  induction ops with
  | nil => intro cur h0 h1; exact ⟨h0, h1⟩
  | cons op rest ih =>
    intro cur h0 h1
    have h := applyVolOp_bounds cur op
    exact ih (applyVolOp cur op) h.1 h.2

end WavPlayer

namespace WavPlayer

/-! Claim theorems. -/

/-- C7: for every file and user context, calling `wav_player_play_file` with a
NULL `write_cb` returns `ESP_ERR_INVALID_ARG` immediately, before any I/O:
`fopen` is not called, no `fread` happens, and the sink is never invoked. -/
theorem null_sink_rejected (file : Option (List Nat)) (allocOk : Bool) (vol : Int)
    (initBuf : List Nat) (sink : Nat → Int) :
    wav_player_play_file true file allocOk vol initBuf sink =
      { result := ESP_ERR_INVALID_ARG, calls := [], fopenCalled := false, freads := 0 } := rfl

/-- C9: `wav_player_increase_volume amount` equals
`wav_player_set_volume (current + amount)` and `wav_player_decrease_volume`
equals `wav_player_set_volume (current - amount)` for every current level and
every integer amount; a negative amount to increase behaves like decrease and
vice versa; `wav_player_set_volume` clamps into `[0, 100]`, and in particular
setting -5 then reading gives 0, and setting 150 then reading gives 100. -/
theorem volume_ops_equiv (cur amount : Int) :
    wav_player_increase_volume cur amount = wav_player_set_volume (cur + amount) ∧
    wav_player_decrease_volume cur amount = wav_player_set_volume (cur - amount) ∧
    wav_player_increase_volume cur (-amount) = wav_player_decrease_volume cur amount ∧
    wav_player_decrease_volume cur (-amount) = wav_player_increase_volume cur amount ∧
    (0 ≤ wav_player_set_volume cur ∧ wav_player_set_volume cur ≤ 100) ∧
    wav_player_get_volume (wav_player_set_volume (-5)) = 0 ∧
    wav_player_get_volume (wav_player_set_volume 150) = 100 := by
  refine ⟨rfl, rfl, ?_, ?_, set_volume_bounds cur, by decide, by decide⟩
  · show wav_player_set_volume (cur + -amount) = wav_player_set_volume (cur - amount)
    rw [← sub_eq_add_neg]
  · show wav_player_set_volume (cur - -amount) = wav_player_set_volume (cur + amount)
    rw [sub_neg_eq_add]

/-- C10: the process-wide volume starts at 30, so a read with no prior
mutation returns 30; 30 lies in `[0, 100]`, and every sequence of
set/increase/decrease operations preserves `0 ≤ level ≤ 100`. -/
theorem volume_initial_state_invariant :
    wav_player_get_volume (runVolOps []) = 30 ∧
    (0 ≤ initial_volume ∧ initial_volume ≤ 100) ∧
    ∀ ops : List VolOp, 0 ≤ runVolOps ops ∧ runVolOps ops ≤ 100 := by
  refine ⟨rfl, by decide, fun ops => ?_⟩
  exact foldVolOps_bounds ops initial_volume (by decide) (by decide)

/-- C3 (code evaluation): for 24-bit input the loop never writes the
processed samples into `processed_buffer` — the buffer is passed to the sink
unchanged. At the failing input (valid 24-bit stream whose data bytes are
0x01 0x00 0x80, volume 100, freshly zeroed buffer) the sink receives
[0, 0, 0], while the volume-adjusted sample the loop computed and dropped is
-32768, whose little-endian re-encoding (bytes 0x00 0x80) is not present in
the delivered buffer. -/
theorem bit24_sink_gets_unwritten_buffer :
    (∀ (vol : Int) (chunk buf : List Nat), transformChunk 24 vol chunk buf = buf) ∧
    (playLoopChunks (fun _ => ESP_OK) 24 100 [[1, 0, 128]]
        (List.replicate BUFFER_SIZE 0) 0).calls = [[0, 0, 0]] ∧
    apply_volume (convert_24_to_16 1 0 128) 100 = -32768 ∧
    loByte (apply_volume (convert_24_to_16 1 0 128) 100) = 0 ∧
    hiByte (apply_volume (convert_24_to_16 1 0 128) 100) = 128 := by
  refine ⟨fun vol chunk buf => rfl, ?_, by decide, by decide, by decide⟩
  decide

/-- C1: `is_valid_wav_header` accepts exactly when all four rules hold —
`1 ≤ num_channels ≤ 2`, `bits_per_sample ∈ {16, 24}`,
`8000 ≤ sample_rate ≤ 48000`, and
`block_align = num_channels * (bits_per_sample / 8)` — and its outcome is a
pure function of those four fields: any two headers agreeing on them (e.g.
differing only in `data_size`) validate identically. -/
theorem validator_complete_and_pure (h : wav_header_t) :
    (is_valid_wav_header h = true ↔
      (1 ≤ h.num_channels ∧ h.num_channels ≤ 2 ∧
       (h.bits_per_sample = 16 ∨ h.bits_per_sample = 24) ∧
       8000 ≤ h.sample_rate ∧ h.sample_rate ≤ 48000 ∧
       h.block_align = h.num_channels * (h.bits_per_sample / 8))) ∧
    (∀ h2 : wav_header_t, h.num_channels = h2.num_channels →
      h.bits_per_sample = h2.bits_per_sample → h.sample_rate = h2.sample_rate →
      h.block_align = h2.block_align →
      is_valid_wav_header h = is_valid_wav_header h2) := by
  constructor
  · unfold is_valid_wav_header
    split_ifs with c1 c2 c3 c4
    · simp only [Bool.false_eq_true, false_iff]
      rintro ⟨a, b, c, d, e, f⟩
      omega
    · simp only [Bool.false_eq_true, false_iff]
      rintro ⟨a, b, c, d, e, f⟩
      rcases c with c | c <;> omega
    · simp only [Bool.false_eq_true, false_iff]
      rintro ⟨a, b, c, d, e, f⟩
      omega
    · simp only [Bool.false_eq_true, false_iff]
      rintro ⟨a, b, c, d, e, f⟩
      rcases c with c | c <;> rw [c] at c4 f <;> omega
    · simp only [true_iff]
      by_cases hb : h.bits_per_sample = 16
      · rw [hb] at c4 ⊢
        refine ⟨by omega, by omega, Or.inl rfl, by omega, by omega, by omega⟩
      · by_cases hb2 : h.bits_per_sample = 24
        · rw [hb2] at c4 ⊢
          refine ⟨by omega, by omega, Or.inr rfl, by omega, by omega, by omega⟩
        · exact absurd ⟨hb, hb2⟩ c2
  · obtain ⟨c, r, b, d, a⟩ := h
    rintro ⟨c2, r2, b2, d2, a2⟩ e1 e2 e3 e4
    simp only at e1 e2 e3 e4
    subst e1
    subst e2
    subst e3
    subst e4
    rfl

/-- C1 witness: a concrete valid header (mono, 8000 Hz, 16-bit, block align
2) validates, and changing only its `data_size` does not change the verdict. -/
theorem validator_complete_and_pure_witness :
    is_valid_wav_header ⟨1, 8000, 16, 0, 2⟩ = is_valid_wav_header ⟨1, 8000, 16, 99, 2⟩ ∧
    is_valid_wav_header ⟨1, 8000, 16, 0, 2⟩ = true :=
  ⟨(validator_complete_and_pure ⟨1, 8000, 16, 0, 2⟩).2 ⟨1, 8000, 16, 99, 2⟩ rfl rfl rfl rfl,
   (validator_complete_and_pure ⟨1, 8000, 16, 0, 2⟩).1.mpr (by decide)⟩

/-- C4: `convert_24_to_16` on any 3-byte little-endian sample assembles the
24-bit value, sign-extends it by filling the top byte exactly when bit 23 is
set (giving value `u - 2^24`), and arithmetic-shifts (floor-divides) by 256;
whenever the sign bit is set (`128 ≤ b2`) the 16-bit result is negative. -/
theorem convert_24_sign_extend (b0 b1 b2 : Nat) (h0 : b0 < 256) (h1 : b1 < 256)
    (h2 : b2 < 256) :
    convert_24_to_16 b0 b1 b2 =
      Int.fdiv
        (if 8388608 ≤ b0 + 256 * b1 + 65536 * b2
         then ((b0 + 256 * b1 + 65536 * b2 : Nat) : Int) - 16777216
         else ((b0 + 256 * b1 + 65536 * b2 : Nat) : Int)) 256 ∧
    (128 ≤ b2 → convert_24_to_16 b0 b1 b2 < 0) := by
  set u : Nat := b0 + 256 * b1 + 65536 * b2 with hu_def
  have hu : u < 16777216 := by omega
  have e1 : (b2 <<< 16) ||| (b1 <<< 8) = 256 * b1 + 65536 * b2 := by
    rw [Nat.or_comm]
    have hx : b1 <<< 8 < 2 ^ 16 := by
      rw [Nat.shiftLeft_eq]
      norm_num
      omega
    have := lorLow (x := b1 <<< 8) b2 16 hx
    rw [this, Nat.shiftLeft_eq]
    norm_num
    omega
  have e2 : ((b2 <<< 16) ||| (b1 <<< 8)) ||| b0 = u := by
    rw [e1, Nat.or_comm]
    have hs : 256 * b1 + 65536 * b2 = (b1 + 256 * b2) <<< 8 := by
      rw [Nat.shiftLeft_eq]
      ring
    rw [hs]
    have := lorLow (x := b0) (b1 + 256 * b2) 8 (by norm_num [h0])
    rw [this]
    norm_num
    omega
  have etest : (u &&& 8388608 ≠ 0) ↔ 8388608 ≤ u := by
    have ht : u &&& 8388608 = (u.testBit 23).toNat * 8388608 := by
      have := Nat.and_two_pow u 23
      norm_num at this
      exact this
    have hbit : u.testBit 23 = decide (u / 8388608 % 2 = 1) := by
      have := Nat.testBit_to_div_mod (i := 23) (x := u)
      norm_num at this
      exact this
    rw [ht, hbit]
    by_cases hd : u / 8388608 % 2 = 1
    · rw [decide_eq_true hd]
      simp only [Bool.toNat_true, one_mul]
      constructor
      · intro _
        omega
      · intro _
        norm_num
    · rw [decide_eq_false hd]
      simp only [Bool.toNat_false, zero_mul]
      constructor
      · intro hne
        exact absurd rfl hne
      · intro hle
        exfalso
        omega
  have eor : u ||| 4278190080 = u + 4278190080 := by
    show u ||| (255 <<< 24) = u + (255 <<< 24)
    rw [lorLow (x := u) 255 24 (by norm_num; omega), Nat.shiftLeft_eq]
    ring
  have e32 : toInt32 (u + 4278190080) = (u : Int) - 16777216 := by
    unfold toInt32
    have hlt : u + 4278190080 < 4294967296 := by omega
    rw [Nat.mod_eq_of_lt hlt]
    rw [if_neg (by omega)]
    push_cast
    omega
  have emain : convert_24_to_16 b0 b1 b2 =
      Int.fdiv
        (if 8388608 ≤ u then (u : Int) - 16777216 else (u : Int)) 256 := by
    simp only [convert_24_to_16]
    rw [e2]
    by_cases hsign : 8388608 ≤ u
    · rw [if_pos (etest.mpr hsign), if_pos hsign, eor, e32]
      rw [Int.fdiv_eq_ediv _ (by norm_num)]
      unfold toInt16
      have hb1 : (8388608 : Int) ≤ (u : Int) := by exact_mod_cast hsign
      have hb2 : (u : Int) < 16777216 := by exact_mod_cast hu
      generalize (u : Int) = z at hb1 hb2 ⊢
      omega
    · rw [if_neg (fun hc => hsign (etest.mp hc)), if_neg hsign]
      rw [Int.fdiv_eq_ediv _ (by norm_num)]
      unfold toInt16
      have hb1 : (0 : Int) ≤ (u : Int) := Int.natCast_nonneg u
      have hb2 : (u : Int) < 8388608 := by exact_mod_cast Nat.lt_of_not_le hsign
      generalize (u : Int) = z at hb1 hb2 ⊢
      omega
  refine ⟨emain, fun hsb => ?_⟩
  rw [emain, if_pos (by omega), Int.fdiv_eq_ediv _ (by norm_num)]
  omega

/-- C4 witness: the concrete sample from the spec — bytes 0x01 0x00 0x80 — has bit
23 set, and the converted 16-bit value is negative (indeed -32768). -/
theorem convert_24_sign_extend_witness :
    convert_24_to_16 1 0 128 = -32768 ∧ convert_24_to_16 1 0 128 < 0 := by
  have h := convert_24_sign_extend 1 0 128 (by decide) (by decide) (by decide)
  exact ⟨h.1.trans (by decide), h.2 (by decide)⟩

/-- Scaling any sample by volume 0 yields the zero sample. -/
theorem apply_volume_zero (s : Int) : apply_volume s 0 = 0 := by
  unfold apply_volume
  rw [mul_zero]
  decide

/-- Entry `j` of the buffer produced by the 16-bit transform: a scaled-sample
byte below `2 * (chunk.length / 2)`, the untouched old buffer byte above. -/
theorem transform16_getD (vol : Int) (chunk buf : List Nat) (j : Nat) (hj : j < buf.length) :
    (transform16 vol chunk buf).getD j 0 =
      if j < 2 * (chunk.length / 2) then
        (if j % 2 = 0 then
          loByte (apply_volume
            (int16OfBytes (chunk.getD (2 * (j / 2)) 0) (chunk.getD (2 * (j / 2) + 1) 0)) vol)
         else
          hiByte (apply_volume
            (int16OfBytes (chunk.getD (2 * (j / 2)) 0) (chunk.getD (2 * (j / 2) + 1) 0)) vol))
      else buf.getD j 0 := by
  unfold transform16
  rw [List.getD_eq_getElem?_getD, List.getElem?_map, List.getElem?_range (by simpa using hj)]
  rfl

set_option maxRecDepth 8192 in
/-- C2 counterexample: the claim "at volume 0 and 16 bits, every byte of the
output buffer passed to the sink is zero, including when the chunk length is
odd" fails at the concrete odd-length chunk `[1]` with a `processed_buffer`
whose first (never-written) byte is 7: the buffer handed to the sink is `[7]`.
The side conditions of the claim (nonempty chunk no longer than
`BUFFER_SIZE`, buffer of size `BUFFER_SIZE`) hold at this input. -/
theorem volume_zero_16bit_cex :
    ¬ (([1] : List Nat) ≠ [] → ([1] : List Nat).length ≤ BUFFER_SIZE →
       (7 :: List.replicate 1023 0).length = BUFFER_SIZE →
       (((transformChunk 16 0 [1] (7 :: List.replicate 1023 0)).take 1).length = 1 ∧
        ∀ b ∈ (transformChunk 16 0 [1] (7 :: List.replicate 1023 0)).take 1, b = 0)) := by
  decide

/-- C2 amended: at volume 0 and 16 bits, the chunk handed to the sink has the
same length as the input chunk, and every byte at a position covered by a
complete 16-bit sample — position below `2 * (length / 2)`, i.e. every byte
for an even-length chunk, all but the last for an odd-length one — is zero;
the trailing byte of an odd-length chunk keeps the prior (uninitialized)
`processed_buffer` contents. -/
theorem volume_zero_16bit_amended (chunk buf : List Nat)
    (hbuf : buf.length = BUFFER_SIZE) (hchunk : chunk.length ≤ BUFFER_SIZE) :
    ((transformChunk 16 0 chunk buf).take chunk.length).length = chunk.length ∧
    ∀ j, j < 2 * (chunk.length / 2) →
      ((transformChunk 16 0 chunk buf).take chunk.length).getD j 0 = 0 := by
  have ht : transformChunk 16 0 chunk buf = transform16 0 chunk buf := rfl
  have hlen : (transform16 0 chunk buf).length = buf.length := by
    unfold transform16
    rw [List.length_map, List.length_range]
  rw [ht]
  have hbuf1 : buf.length = 1024 := hbuf
  have hchunk1 : chunk.length ≤ 1024 := hchunk
  constructor
  · rw [List.length_take, hlen, hbuf1]
    omega
  · intro j hj
    have hjlen : j < chunk.length := by omega
    have hjbuf : j < buf.length := by omega
    rw [List.getD_eq_getElem?_getD, List.getElem?_take, if_pos hjlen,
      ← List.getD_eq_getElem?_getD, transform16_getD 0 chunk buf j hjbuf, if_pos hj,
      apply_volume_zero]
    split <;> decide

set_option maxRecDepth 8192 in
/-- C2 amended witness: an even-length chunk `[1, 2]` against an all-7 buffer
comes out as zero bytes of the same length. -/
theorem volume_zero_16bit_amended_witness :
    ((transformChunk 16 0 [1, 2] (List.replicate 1024 7)).take 2).length = 2 ∧
    ((transformChunk 16 0 [1, 2] (List.replicate 1024 7)).take 2).getD 0 0 = 0 ∧
    ((transformChunk 16 0 [1, 2] (List.replicate 1024 7)).take 2).getD 1 0 = 0 := by
  have h := volume_zero_16bit_amended [1, 2] (List.replicate 1024 7)
    (by rw [List.length_replicate]; rfl) (by decide)
  exact ⟨h.1, h.2 0 (by decide), h.2 1 (by decide)⟩

/-- C5: the header parser succeeds exactly when at least 44 bytes are
available, consumes exactly 44 bytes, and transcribes the little-endian
fields at fixed offsets — channel count at 22, sample rate at 24, block
align at 32, bits per sample at 34, data size at 40 — with no semantic
validation; on fewer than 44 bytes it fails and produces no header. -/
theorem header_parser_spec (bs : List Nat) (hb : ∀ b ∈ bs, b < 256) :
    ((read_wav_header bs).isSome ↔ 44 ≤ bs.length) ∧
    (44 ≤ bs.length →
      read_wav_header bs =
        some ({ num_channels := bs.getD 22 0 + 256 * bs.getD 23 0,
                sample_rate := bs.getD 24 0 + 256 * bs.getD 25 0 + 65536 * bs.getD 26 0 +
                  16777216 * bs.getD 27 0,
                bits_per_sample := bs.getD 34 0 + 256 * bs.getD 35 0,
                data_size := bs.getD 40 0 + 256 * bs.getD 41 0 + 65536 * bs.getD 42 0 +
                  16777216 * bs.getD 43 0,
                block_align := bs.getD 32 0 + 256 * bs.getD 33 0 }, bs.drop 44)) := by
  have hbyte : ∀ i, i < bs.length → bs.getD i 0 < 256 := by
    intro i hi
    have he : bs.getD i 0 = bs.get ⟨i, hi⟩ := by
      rw [List.getD_eq_getElem?_getD, List.getElem?_eq_getElem hi]
      rfl
    rw [he]
    exact hb _ (bs.get_mem i hi)

  constructor
  · unfold read_wav_header
    split
    · simp only [Option.isSome_none, Bool.false_eq_true, false_iff]
      omega
    · simp only [Option.isSome_some, true_iff]
      omega
  · intro h44
    unfold read_wav_header
    rw [if_neg (by omega)]
    have e22 : rdByte bs 22 ||| (rdByte bs 23 <<< 8) = rdByte bs 22 + 256 * rdByte bs 23 :=
      lor16 _ _ (hbyte 22 (by omega))
    have e24 : rdByte bs 24 ||| (rdByte bs 25 <<< 8) ||| (rdByte bs 26 <<< 16) |||
        (rdByte bs 27 <<< 24) =
        rdByte bs 24 + 256 * rdByte bs 25 + 65536 * rdByte bs 26 + 16777216 * rdByte bs 27 :=
      lor32 _ _ _ _ (hbyte 24 (by omega)) (hbyte 25 (by omega)) (hbyte 26 (by omega))
    have e34 : rdByte bs 34 ||| (rdByte bs 35 <<< 8) = rdByte bs 34 + 256 * rdByte bs 35 :=
      lor16 _ _ (hbyte 34 (by omega))
    have e40 : rdByte bs 40 ||| (rdByte bs 41 <<< 8) ||| (rdByte bs 42 <<< 16) |||
        (rdByte bs 43 <<< 24) =
        rdByte bs 40 + 256 * rdByte bs 41 + 65536 * rdByte bs 42 + 16777216 * rdByte bs 43 :=
      lor32 _ _ _ _ (hbyte 40 (by omega)) (hbyte 41 (by omega)) (hbyte 42 (by omega))
    have e32b : rdByte bs 32 ||| (rdByte bs 33 <<< 8) = rdByte bs 32 + 256 * rdByte bs 33 :=
      lor16 _ _ (hbyte 32 (by omega))
    rw [e22, e24, e34, e40, e32b]
    rfl

/-- C5 witness: a 44-byte all-zero stream parses into the all-zero header
with nothing left over. -/
theorem header_parser_spec_witness :
    read_wav_header (List.replicate 44 0) =
      some ({ num_channels := 0, sample_rate := 0, bits_per_sample := 0,
              data_size := 0, block_align := 0 }, []) := by
  have h := (header_parser_spec (List.replicate 44 0) (by decide)).2 (by decide)
  exact h.trans (by decide)

/-- C6: if the sink fails for the first time on chunk `k` (and chunk `k`
exists), playback halts right there: the overall result is the failure value of the sink verbatim; the buffers passed to the sink are exactly those for
chunks 0 through `k` (nothing after the failing one); exactly `k + 2` reads
occur (one for the header, one per chunk through the failing one, none
after); and the bytes of the successfully delivered chunks are exactly the
bytes of the chunks up to and including the last successful one. -/
theorem sink_failure_halts (bs : List Nat) (hdr : wav_header_t) (rest : List Nat)
    (vol : Int) (initBuf : List Nat) (sink : Nat → Int) (k : Nat)
    (hread : read_wav_header bs = some (hdr, rest))
    (hvalid : is_valid_wav_header hdr = true)
    (hbuf : initBuf.length = BUFFER_SIZE)
    (hok : ∀ i, i < k → sink i = ESP_OK) (hfail : sink k ≠ ESP_OK)
    (hk : k < (chunkify rest).length) :
    (wav_player_play_file false (some bs) true vol initBuf sink).result = sink k ∧
    (wav_player_play_file false (some bs) true vol initBuf sink).calls =
      (outputsFrom hdr.bits_per_sample vol (chunkify rest) initBuf).take (k + 1) ∧
    (wav_player_play_file false (some bs) true vol initBuf sink).freads = k + 2 ∧
    (((wav_player_play_file false (some bs) true vol initBuf sink).calls.take k).map
        List.length).sum = (((chunkify rest).take k).map List.length).sum := by
  have hout : wav_player_play_file false (some bs) true vol initBuf sink =
      { result := (playLoopChunks sink hdr.bits_per_sample vol (chunkify rest) initBuf 0).ret,
        calls := (playLoopChunks sink hdr.bits_per_sample vol (chunkify rest) initBuf 0).calls,
        fopenCalled := true,
        freads :=
          1 + (playLoopChunks sink hdr.bits_per_sample vol (chunkify rest) initBuf 0).freads } := by
    simp only [wav_player_play_file, hread, hvalid, Bool.true_eq_false, if_false,
      Bool.false_eq_true]
  have hloop := playLoopChunks_first_fail sink hdr.bits_per_sample vol k (chunkify rest)
    initBuf 0 (fun i hi => by rw [Nat.zero_add]; exact hok i hi)
    (by rw [Nat.zero_add]; exact hfail) hk
  rw [hout, hloop]
  refine ⟨?_, rfl, ?_, ?_⟩
  · show sink (0 + k) = sink k
    rw [Nat.zero_add]
  · show 1 + (k + 1) = k + 2
    omega
  · show ((((outputsFrom hdr.bits_per_sample vol (chunkify rest) initBuf).take (k + 1)).take
        k).map List.length).sum = (((chunkify rest).take k).map List.length).sum
    rw [List.take_take, min_eq_left (by omega), List.map_take, List.map_take,
      outputsFrom_lengths hdr.bits_per_sample vol (chunkify rest) initBuf hbuf
        (fun c hc => (chunkify_chunks rest c hc).1)]

/-- C6 witness: a concrete valid 16-bit mono stream with four data bytes and
a sink that fails on its very first invocation: the failure value -1 is the
overall result, one data chunk was read and passed, no successful chunk
bytes were delivered. -/
theorem sink_failure_halts_witness :
    (wav_player_play_file false
        (some [0, 0, 0, 0, 0, 0, 0, 0, 0, 0, 0, 0, 0, 0, 0, 0, 0, 0, 0, 0, 0, 0, 1, 0,
               64, 31, 0, 0, 0, 0, 0, 0, 2, 0, 16, 0, 0, 0, 0, 0, 0, 0, 0, 0, 9, 9, 9, 9])
        true 100 (List.replicate 1024 0) (fun _ => -1)).result = -1 ∧
    (wav_player_play_file false
        (some [0, 0, 0, 0, 0, 0, 0, 0, 0, 0, 0, 0, 0, 0, 0, 0, 0, 0, 0, 0, 0, 0, 1, 0,
               64, 31, 0, 0, 0, 0, 0, 0, 2, 0, 16, 0, 0, 0, 0, 0, 0, 0, 0, 0, 9, 9, 9, 9])
        true 100 (List.replicate 1024 0) (fun _ => -1)).freads = 2 := by
  have h := sink_failure_halts
    [0, 0, 0, 0, 0, 0, 0, 0, 0, 0, 0, 0, 0, 0, 0, 0, 0, 0, 0, 0, 0, 0, 1, 0,
     64, 31, 0, 0, 0, 0, 0, 0, 2, 0, 16, 0, 0, 0, 0, 0, 0, 0, 0, 0, 9, 9, 9, 9]
    ⟨1, 8000, 16, 0, 2⟩ [9, 9, 9, 9] 100 (List.replicate 1024 0) (fun _ => -1) 0
    (by decide) (by decide) (by rw [List.length_replicate]; rfl)
    (fun i hi => absurd hi (Nat.not_lt_zero i)) (by decide) (by decide)
  exact ⟨h.1, h.2.2.1⟩

/-- C8 counterexample: the claim that distinct failure causes yield return
values the caller can tell apart fails on the code: an open failure
(`fopen` returns NULL) and a format failure (fewer than 44 header bytes)
both return the same value `ESP_FAIL`, for `wav_player_play_file` as well as
for `wav_player_get_info`. -/
theorem error_kinds_cex :
    (wav_player_play_file false none true 30 [] (fun _ => ESP_OK)).result =
      (wav_player_play_file false (some []) true 30 [] (fun _ => ESP_OK)).result ∧
    (wav_player_play_file false none true 30 [] (fun _ => ESP_OK)).result = ESP_FAIL ∧
    (wav_player_play_file false (some []) true 30 [] (fun _ => ESP_OK)).result = ESP_FAIL ∧
    (wav_player_get_info none).result = (wav_player_get_info (some [])).result := by
  refine ⟨rfl, rfl, rfl, rfl⟩

/-- C8 amended: every failure of `wav_player_play_file` and
`wav_player_get_info` is terminal for that invocation (no retries: the
failing invocation performs no further reads and no sink calls beyond the
point of failure), and the caller can tell an argument error
(`ESP_ERR_INVALID_ARG`) and success (`ESP_OK`) apart from the rest; but
open, format, validation, and allocation failures all surface as the single
value `ESP_FAIL` and are not mutually distinguishable (a sink failure
surfaces as whatever value the sink returned). -/
theorem error_kinds_amended :
    (∀ (file : Option (List Nat)) (allocOk : Bool) (vol : Int) (buf : List Nat)
        (sink : Nat → Int),
      (wav_player_play_file true file allocOk vol buf sink).result = ESP_ERR_INVALID_ARG) ∧
    (∀ (allocOk : Bool) (vol : Int) (buf : List Nat) (sink : Nat → Int),
      wav_player_play_file false none allocOk vol buf sink =
        { result := ESP_FAIL, calls := [], fopenCalled := true, freads := 0 }) ∧
    (∀ (bs : List Nat) (allocOk : Bool) (vol : Int) (buf : List Nat) (sink : Nat → Int),
      bs.length < 44 →
      wav_player_play_file false (some bs) allocOk vol buf sink =
        { result := ESP_FAIL, calls := [], fopenCalled := true, freads := 1 }) ∧
    (∀ (bs rest : List Nat) (hdr : wav_header_t) (vol : Int) (buf : List Nat)
        (sink : Nat → Int),
      read_wav_header bs = some (hdr, rest) → is_valid_wav_header hdr = false →
      wav_player_play_file false (some bs) true vol buf sink =
        { result := ESP_FAIL, calls := [], fopenCalled := true, freads := 1 }) ∧
    (∀ (bs rest : List Nat) (hdr : wav_header_t) (vol : Int) (buf : List Nat)
        (sink : Nat → Int),
      read_wav_header bs = some (hdr, rest) → is_valid_wav_header hdr = true →
      wav_player_play_file false (some bs) false vol buf sink =
        { result := ESP_FAIL, calls := [], fopenCalled := true, freads := 1 }) ∧
    (ESP_ERR_INVALID_ARG ≠ ESP_FAIL ∧ ESP_ERR_INVALID_ARG ≠ ESP_OK ∧ ESP_FAIL ≠ ESP_OK) ∧
    (wav_player_get_info none =
        { result := ESP_FAIL, header := none, fopenCalled := true, freads := 0 } ∧
      ∀ bs : List Nat, bs.length < 44 →
        wav_player_get_info (some bs) =
          { result := ESP_FAIL, header := none, fopenCalled := true, freads := 1 }) := by
  refine ⟨fun file allocOk vol buf sink => rfl, fun allocOk vol buf sink => rfl,
    ?_, ?_, ?_, by refine ⟨by decide, by decide, by decide⟩, rfl, ?_⟩
  · intro bs allocOk vol buf sink hshort
    have hnone : read_wav_header bs = none := by
      unfold read_wav_header
      rw [if_pos hshort]
    simp only [wav_player_play_file, hnone, Bool.false_eq_true, if_false]
  · intro bs rest hdr vol buf sink hread hinvalid
    simp only [wav_player_play_file, hread, hinvalid, Bool.false_eq_true, if_false,
      if_true]
  · intro bs rest hdr vol buf sink hread hvalid
    simp only [wav_player_play_file, hread, hvalid, Bool.true_eq_false, if_false,
      Bool.false_eq_true, if_true]
  · intro bs hshort
    have hnone : read_wav_header bs = none := by
      unfold read_wav_header
      rw [if_pos hshort]
    simp only [wav_player_get_info, hnone]

/-- C8 amended witness: concrete instances — a NULL sink gives 258
(`ESP_ERR_INVALID_ARG`), an unopenable file gives -1 with no reads, and an
empty (too short) file gives -1 after the single header read, for both entry
points. -/
theorem error_kinds_amended_witness :
    (wav_player_play_file true (some [1, 2]) true 30 [] (fun _ => 0)).result = 258 ∧
    wav_player_play_file false (some []) true 30 [] (fun _ => 0) =
      { result := -1, calls := [], fopenCalled := true, freads := 1 } ∧
    wav_player_get_info (some []) =
      { result := -1, header := none, fopenCalled := true, freads := 1 } := by
  refine ⟨error_kinds_amended.1 (some [1, 2]) true 30 [] (fun _ => 0), ?_, ?_⟩
  · exact error_kinds_amended.2.2.1 [] true 30 [] (fun _ => 0) (by decide)
  · exact error_kinds_amended.2.2.2.2.2.2.2 [] (by decide)

end WavPlayer
